import Mathlib

/-!
Shallow embedding of the validations crate (src/lib.rs).

The crate provides:
* `Error T`   — an individual validation error: a message plus optional details.
* `Errors T`  — a recursive container of base errors and per-field nested trees.
* `Validate`  — a trait producing `Result<(), Errors<T>>`; modelled here by the
  two concrete implementations from the crate (AddressBookEntry, Email).

Rust `HashMap<String, Box<Errors<T>>>` is modelled as an association list with
unique keys; `HashMap::insert`, `HashMap::get` and the `Entry` API are modelled
by `insertField`, `lookupField` and `modifyField` below.  Rust mutation is
modelled by returning the updated value.
-/

namespace Validations

/-- An individual validation error (struct `Error<T>` in the source):
an optional details payload and a human-readable message. -/
structure Error (T : Type) : Type where
  details : Option T
  message : String
  deriving Repr, DecidableEq

namespace Error

variable {T : Type}

/-- Constructs a validation error (`Error::new`). -/
def new (message : String) : Error T :=
  { details := none, message := message }

/-- Constructs a validation error with additional details (`Error::with_details`). -/
def with_details (message : String) (details : T) : Error T :=
  { details := some details, message := message }

/-- Sets the details of this error (`Error::set_details`). -/
def set_details (e : Error T) (details : T) : Error T :=
  { e with details := some details }

end Error

/-- A collection of errors returned by a failed validation (struct `Errors<T>`):
an optional vector of base errors and an optional map from field name to a
nested `Errors` tree. -/
inductive Errors (T : Type) : Type where
  | mk (base : Option (List (Error T))) (fields : Option (List (String × Errors T)))

namespace Errors

variable {T : Type}

/-- The `base` component of the struct. -/
def base : Errors T → Option (List (Error T))
  | .mk b _ => b

/-- The `fields` component of the struct. -/
def fields : Errors T → Option (List (String × Errors T))
  | .mk _ f => f

@[simp] theorem base_mk (b : Option (List (Error T))) (f : Option (List (String × Errors T))) :
    (Errors.mk b f).base = b := rfl

@[simp] theorem fields_mk (b : Option (List (Error T))) (f : Option (List (String × Errors T))) :
    (Errors.mk b f).fields = f := rfl

/-- Model of `HashMap::get`: the value bound to the first matching key. -/
def lookupField : List (String × Errors T) → String → Option (Errors T)
  | [], _ => none
  | (k, v) :: rest, f => if k = f then some v else lookupField rest f

/-- Model of `HashMap::insert`: replace the binding for the key if present,
otherwise add a new binding. -/
def insertField : List (String × Errors T) → String → Errors T → List (String × Errors T)
  | [], f, t => [(f, t)]
  | (k, v) :: rest, f, t => if k = f then (f, t) :: rest else (k, v) :: insertField rest f t

/-- Model of the occupied branch of the `HashMap` entry API: update the value
bound to the key in place. -/
def modifyField : List (String × Errors T) → String → (Errors T → Errors T) → List (String × Errors T)
  | [], _, _ => []
  | (k, v) :: rest, f, g => if k = f then (k, g v) :: rest else (k, v) :: modifyField rest f g

/-- Constructs an empty `Errors` value (`Errors::new`). -/
def new : Errors T := .mk none none

/-- Adds a validation error that is not specific to any field (`Errors::add_error`). -/
def add_error (e : Errors T) (err : Error T) : Errors T :=
  match e with
  | .mk (some base_errors) f => .mk (some (base_errors ++ [err])) f
  | .mk none f => .mk (some [err]) f

/-- Adds a validation error for the given field (`Errors::add_field_error`):
if a tree is already present for the field the record is appended to its base
(the occupied entry branch), otherwise a fresh one-error tree is inserted. -/
def add_field_error (e : Errors T) (field : String) (err : Error T) : Errors T :=
  match e with
  | .mk b (some field_errors) =>
    match lookupField field_errors field with
    | some _ => .mk b (some (modifyField field_errors field (fun t => t.add_error err)))
    | none => .mk b (some (insertField field_errors field (Errors.new.add_error err)))
  | .mk b none => .mk b (some [(field, Errors.new.add_error err)])

/-- A slice of non-field-specific errors, if any (`Errors::base`). -/
def baseSlice (e : Errors T) : Option (List (Error T)) :=
  e.base

/-- Model of `Option::unwrap`: an operation that panics (signals an error)
when applied to `None`. -/
def unwrapOpt {α : Type} : Option α → Except String α
  | some a => .ok a
  | none => .error "called Option::unwrap on a None value"

/-- `Errors::field` exactly as written in the source: an `is_some` test
guarding an `unwrap`.  The `Except` layer makes the potential panic of the
`unwrap` explicit. -/
def fieldImpl (e : Errors T) (f : String) : Except String (Option (Errors T)) :=
  if e.fields.isSome then
    match unwrapOpt e.fields with
    | .ok m => .ok (lookupField m f)
    | .error msg => .error msg
  else
    .ok none

/-- The `Errors` for the given field, if any (the value `Errors::field` returns
on its non-panicking paths): a lookup in the field map when one is present. -/
def field (e : Errors T) (f : String) : Option (Errors T) :=
  e.fields.bind (fun m => lookupField m f)

/-- Returns true if there are no errors (`Errors::is_empty`). -/
def is_empty (e : Errors T) : Bool :=
  e.base.isNone && e.fields.isNone

/-- Sets the given field to the given `Errors` (`Errors::set_field_errors`),
replacing any binding already present for that field. -/
def set_field_errors (e : Errors T) (field : String) (errors : Errors T) : Errors T :=
  match e with
  | .mk b (some field_errors) => .mk b (some (insertField field_errors field errors))
  | .mk b none => .mk b (some [(field, errors)])

end Errors

/-- One call on an `Errors` tree: the three mutating operations of the public
interface. -/
inductive Op (T : Type) : Type where
  | addError (err : Error T)
  | addFieldError (field : String) (err : Error T)
  | setFieldErrors (field : String) (t : Errors T)

/-- Applies one operation to a tree. -/
def step {T : Type} (e : Errors T) : Op T → Errors T
  | .addError err => e.add_error err
  | .addFieldError f err => e.add_field_error f err
  | .setFieldErrors f t => e.set_field_errors f t

/-- Runs a sequence of operations starting from `Errors::new`. -/
def run {T : Type} (ops : List (Op T)) : Errors T :=
  ops.foldl step Errors.new

/-!
The example `Validate` implementations from the crate (its test module):
an address book entry with two optional phone numbers, an optional email
and a name, validated with `InvalidCharacters` as the details type.
-/

/-- A phone number split into area code and number. -/
structure PhoneNumber : Type where
  area_code : String
  number : String
  deriving Repr, DecidableEq

/-- An email address (the tuple struct `Email(&str)`). -/
structure Email : Type where
  address : String
  deriving Repr, DecidableEq

/-- Details payload listing the invalid characters found in a phone number. -/
structure InvalidCharacters : Type where
  invalid_characters : List Char
  deriving Repr, DecidableEq

/-- An address book entry, the main validated value of the examples. -/
structure AddressBookEntry : Type where
  cell_number : Option PhoneNumber
  email : Option Email
  home_number : Option PhoneNumber
  name : String
  deriving Repr, DecidableEq

/-- `PhoneNumber::full_number`: area code and number joined by a dash. -/
def PhoneNumber.full_number (p : PhoneNumber) : String :=
  p.area_code ++ "-" ++ p.number

/-- `InvalidCharacters::check_digits`: remove the dash separators
(`replace("-", "")`, modelled as a filter on the character list since the
pattern is a single character) and keep the characters that are not decimal
digits, in order. -/
def InvalidCharacters.check_digits (number : String) : List Char :=
  (number.toList.filter (fun c => c != '-')).filter (fun c => !c.isDigit)

/-- `Validate::validate` for `Email`: the address must contain an @ symbol. -/
def Email.validate (em : Email) : Except (Errors InvalidCharacters) Unit :=
  if em.address.contains '@' then
    .ok ()
  else
    .error (Errors.new.add_error (Error.new "must contain an @ symbol"))

/-- The body of the loop over `numbers_to_check` in
`AddressBookEntry::validate`: if the phone number is present and its full
number has invalid characters, add a field error carrying them as details. -/
def checkNumber (errors : Errors InvalidCharacters) (field_name : String)
    (field : Option PhoneNumber) : Errors InvalidCharacters :=
  match field with
  | some p =>
    let invalid_characters := InvalidCharacters.check_digits p.full_number
    if invalid_characters.length > 0 then
      errors.add_field_error field_name
        (Error.with_details "has invalid characters"
          { invalid_characters := invalid_characters })
    else
      errors
  | none => errors

/-- The first three checks of `AddressBookEntry::validate`: the base phone
presence rule, the name field rule, and the delegated email validation. -/
def AddressBookEntry.baseChecks (a : AddressBookEntry) : Errors InvalidCharacters :=
  let errors := Errors.new
  let errors :=
    if a.cell_number.isNone && a.home_number.isNone then
      errors.add_error (Error.new "at least one phone number is required")
    else errors
  let errors :=
    if a.name.length == 0 then
      errors.add_field_error "name" (Error.new "can\x27t be blank")
    else errors
  match a.email with
  | some em =>
    match em.validate with
    | .error field_errors => errors.set_field_errors "email" field_errors
    | .ok _ => errors
  | none => errors

/-- The full error tree `AddressBookEntry::validate` builds before deciding
between `Ok` and `Err`. -/
def AddressBookEntry.collectErrors (a : AddressBookEntry) : Errors InvalidCharacters :=
  checkNumber (checkNumber a.baseChecks "home_number" a.home_number)
    "cell_number" a.cell_number

/-- `Validate::validate` for `AddressBookEntry`. -/
def AddressBookEntry.validate (a : AddressBookEntry) : Except (Errors InvalidCharacters) Unit :=
  if a.collectErrors.is_empty then .ok () else .error a.collectErrors

/-- The conjunction of the validation rules `AddressBookEntry::validate`
checks: at least one phone number, a non-blank name, a well-formed email when
present, and no invalid characters in either phone number. -/
def AddressBookEntry.rulesHold (a : AddressBookEntry) : Bool :=
  (a.cell_number.isSome || a.home_number.isSome)
    && (a.name.length != 0)
    && (match a.email with
        | some em => em.address.contains '@'
        | none => true)
    && (match a.home_number with
        | some p => (InvalidCharacters.check_digits p.full_number).length == 0
        | none => true)
    && (match a.cell_number with
        | some p => (InvalidCharacters.check_digits p.full_number).length == 0
        | none => true)

/-!
Basic lemmas about the `Errors` operations.
-/

namespace Errors

variable {T : Type}

@[simp] theorem base_new : (new : Errors T).base = none := rfl

@[simp] theorem fields_new : (new : Errors T).fields = none := rfl

theorem add_error_eq (e : Errors T) (err : Error T) :
    e.add_error err = .mk (some (e.base.getD [] ++ [err])) e.fields := by
  cases e with
  | mk b f => cases b <;> simp [add_error]

@[simp] theorem base_add_error (e : Errors T) (err : Error T) :
    (e.add_error err).base = some (e.base.getD [] ++ [err]) := by
  rw [add_error_eq, base_mk]

@[simp] theorem fields_add_error (e : Errors T) (err : Error T) :
    (e.add_error err).fields = e.fields := by
  rw [add_error_eq, fields_mk]

@[simp] theorem base_add_field_error (e : Errors T) (f : String) (err : Error T) :
    (e.add_field_error f err).base = e.base := by
  cases e with
  | mk b fs =>
    cases fs with
    | none => simp [add_field_error]
    | some m => cases h : lookupField m f <;> simp [add_field_error, h]

@[simp] theorem base_set_field_errors (e : Errors T) (f : String) (t : Errors T) :
    (e.set_field_errors f t).base = e.base := by
  cases e with
  | mk b fs => cases fs <;> simp [set_field_errors]

@[simp] theorem is_empty_new : (new : Errors T).is_empty = true := rfl

@[simp] theorem is_empty_add_error (e : Errors T) (err : Error T) :
    (e.add_error err).is_empty = false := by
  simp [is_empty]

@[simp] theorem is_empty_add_field_error (e : Errors T) (f : String) (err : Error T) :
    (e.add_field_error f err).is_empty = false := by
  cases e with
  | mk b fs =>
    cases fs with
    | none => simp [add_field_error, is_empty]
    | some m => cases h : lookupField m f <;> simp [add_field_error, h, is_empty]

@[simp] theorem is_empty_set_field_errors (e : Errors T) (f : String) (t : Errors T) :
    (e.set_field_errors f t).is_empty = false := by
  cases e with
  | mk b fs => cases fs <;> simp [set_field_errors, is_empty]

@[simp] theorem lookupField_insertField_self (m : List (String × Errors T)) (f : String)
    (t : Errors T) : lookupField (insertField m f t) f = some t := by
  induction m with
  | nil => simp [insertField, lookupField]
  | cons p rest ih =>
    obtain ⟨k, v⟩ := p
    by_cases h : k = f
    · simp [insertField, h, lookupField]
    · simp [insertField, h, lookupField, ih]

theorem lookupField_insertField_ne (m : List (String × Errors T)) (f g : String)
    (t : Errors T) (h : g ≠ f) : lookupField (insertField m f t) g = lookupField m g := by
  induction m with
  | nil => simp [insertField, lookupField, Ne.symm h]
  | cons p rest ih =>
    obtain ⟨k, v⟩ := p
    by_cases hk : k = f
    · subst hk
      simp [insertField, lookupField, Ne.symm h]
    · simp [insertField, hk, lookupField, ih]

theorem lookupField_modifyField_self (m : List (String × Errors T)) (f : String)
    (g : Errors T → Errors T) :
    lookupField (modifyField m f g) f = (lookupField m f).map g := by
  induction m with
  | nil => simp [modifyField, lookupField]
  | cons p rest ih =>
    obtain ⟨k, v⟩ := p
    by_cases hk : k = f
    · simp [modifyField, hk, lookupField]
    · simp [modifyField, hk, lookupField, ih]

theorem lookupField_modifyField_ne (m : List (String × Errors T)) (f k : String)
    (g : Errors T → Errors T) (h : k ≠ f) :
    lookupField (modifyField m f g) k = lookupField m k := by
  induction m with
  | nil => simp [modifyField]
  | cons p rest ih =>
    obtain ⟨k0, v⟩ := p
    by_cases hk : k0 = f
    · subst hk
      simp [modifyField, lookupField, Ne.symm h]
    · simp [modifyField, hk, lookupField, ih]

theorem insertField_ne_nil (m : List (String × Errors T)) (f : String) (t : Errors T) :
    insertField m f t ≠ [] := by
  cases m with
  | nil => simp [insertField]
  | cons p rest =>
    obtain ⟨k, v⟩ := p
    by_cases h : k = f <;> simp [insertField, h]

theorem modifyField_ne_nil (m : List (String × Errors T)) (f : String)
    (g : Errors T → Errors T) (h : m ≠ []) : modifyField m f g ≠ [] := by
  cases m with
  | nil => exact absurd rfl h
  | cons p rest =>
    obtain ⟨k, v⟩ := p
    by_cases hk : k = f <;> simp [modifyField, hk]

@[simp] theorem field_new (f : String) : (new : Errors T).field f = none := rfl

@[simp] theorem field_add_error (e : Errors T) (err : Error T) (f : String) :
    (e.add_error err).field f = e.field f := by
  simp [field]

theorem field_add_field_error_self (e : Errors T) (f : String) (err : Error T) :
    (e.add_field_error f err).field f =
      some (((e.field f).getD Errors.new).add_error err) := by
  cases e with
  | mk b fs =>
    cases fs with
    | none => simp [add_field_error, field, lookupField]
    | some m =>
      cases h : lookupField m f with
      | some t => simp [add_field_error, h, field, lookupField_modifyField_self]
      | none => simp [add_field_error, h, field, lookupField_insertField_self]

theorem field_add_field_error_ne (e : Errors T) (f g : String) (err : Error T)
    (h : g ≠ f) : (e.add_field_error f err).field g = e.field g := by
  cases e with
  | mk b fs =>
    cases fs with
    | none => simp [add_field_error, field, lookupField, Ne.symm h]
    | some m =>
      cases hm : lookupField m f with
      | some t => simp [add_field_error, hm, field, lookupField_modifyField_ne _ _ _ _ h]
      | none => simp [add_field_error, hm, field, lookupField_insertField_ne _ _ _ _ h]

theorem field_set_field_errors_self (e : Errors T) (f : String) (t : Errors T) :
    (e.set_field_errors f t).field f = some t := by
  cases e with
  | mk b fs =>
    cases fs with
    | none => simp [set_field_errors, field, lookupField]
    | some m => simp [set_field_errors, field, lookupField_insertField_self]

theorem field_set_field_errors_ne (e : Errors T) (f g : String) (t : Errors T)
    (h : g ≠ f) : (e.set_field_errors f t).field g = e.field g := by
  cases e with
  | mk b fs =>
    cases fs with
    | none => simp [set_field_errors, field, lookupField, Ne.symm h]
    | some m => simp [set_field_errors, field, lookupField_insertField_ne _ _ _ _ h]

end Errors

/-!
Lemmas about operation sequences.
-/

theorem is_empty_step {T : Type} (e : Errors T) (op : Op T) :
    (step e op).is_empty = false := by
  cases op <;> simp [step]

theorem is_empty_foldl_step {T : Type} (ops : List (Op T)) (e : Errors T)
    (h : e.is_empty = false) : (ops.foldl step e).is_empty = false := by
  induction ops generalizing e with
  | nil => simpa using h
  | cons op rest ih => exact ih _ (is_empty_step e op)

theorem base_foldl_add_error {T : Type} (rs : List (Error T)) (e : Errors T)
    (l : List (Error T)) (h : e.base = some l) :
    (rs.foldl Errors.add_error e).base = some (l ++ rs) := by
  induction rs generalizing e l with
  | nil => simpa using h
  | cons r rest ih =>
    have h1 : (e.add_error r).base = some (l ++ [r]) := by simp [h]
    simpa [List.append_assoc] using ih (e.add_error r) (l ++ [r]) h1

theorem field_foldl_step_untouched {T : Type} (ops : List (Op T)) (g : String)
    (e : Errors T) (he : e.field g = none)
    (h1 : ∀ r, Op.addFieldError g r ∉ ops) (h2 : ∀ t, Op.setFieldErrors g t ∉ ops) :
    (ops.foldl step e).field g = none := by
  induction ops generalizing e with
  | nil => simpa using he
  | cons op rest ih =>
    have hstep : (step e op).field g = none := by
      cases op with
      | addError err =>
        show (e.add_error err).field g = none
        rw [Errors.field_add_error]
        exact he
      | addFieldError f err =>
        have hne : g ≠ f := by
          intro hgf
          subst hgf
          exact h1 err (List.mem_cons_self _ _)
        show (e.add_field_error f err).field g = none
        rw [Errors.field_add_field_error_ne e f g err hne]
        exact he
      | setFieldErrors f t =>
        have hne : g ≠ f := by
          intro hgf
          subst hgf
          exact h2 t (List.mem_cons_self _ _)
        show (e.set_field_errors f t).field g = none
        rw [Errors.field_set_field_errors_ne e f g t hne]
        exact he
    exact ih (step e op) hstep
      (fun r hr => h1 r (List.mem_cons_of_mem _ hr))
      (fun t ht => h2 t (List.mem_cons_of_mem _ ht))

theorem step_preserves_rep_inv {T : Type} (e : Errors T) (op : Op T)
    (hb : ∀ l, e.base = some l → l ≠ []) (hf : ∀ m, e.fields = some m → m ≠ []) :
    (∀ l, (step e op).base = some l → l ≠ []) ∧
    (∀ m, (step e op).fields = some m → m ≠ []) := by
  cases op with
  | addError err =>
    constructor
    · intro l hl
      rw [show step e (Op.addError err) = e.add_error err from rfl,
        Errors.base_add_error] at hl
      have : l = e.base.getD [] ++ [err] := (Option.some.injEq _ _ ▸ hl).symm
      subst this
      simp
    · intro m hm
      rw [show step e (Op.addError err) = e.add_error err from rfl,
        Errors.fields_add_error] at hm
      exact hf m hm
  | addFieldError f err =>
    constructor
    · intro l hl
      rw [show step e (Op.addFieldError f err) = e.add_field_error f err from rfl,
        Errors.base_add_field_error] at hl
      exact hb l hl
    · intro m hm
      rw [show step e (Op.addFieldError f err) = e.add_field_error f err from rfl] at hm
      cases e with
      | mk b fs =>
        cases fs with
        | none =>
          simp [Errors.add_field_error] at hm
          subst hm
          simp
        | some m0 =>
          cases hlk : Errors.lookupField m0 f with
          | some t =>
            simp [Errors.add_field_error, hlk] at hm
            subst hm
            exact Errors.modifyField_ne_nil m0 f _ (hf m0 rfl)
          | none =>
            simp [Errors.add_field_error, hlk] at hm
            subst hm
            exact Errors.insertField_ne_nil m0 f _
  | setFieldErrors f t =>
    constructor
    · intro l hl
      rw [show step e (Op.setFieldErrors f t) = e.set_field_errors f t from rfl,
        Errors.base_set_field_errors] at hl
      exact hb l hl
    · intro m hm
      rw [show step e (Op.setFieldErrors f t) = e.set_field_errors f t from rfl] at hm
      cases e with
      | mk b fs =>
        cases fs with
        | none =>
          simp [Errors.set_field_errors] at hm
          subst hm
          simp
        | some m0 =>
          simp [Errors.set_field_errors] at hm
          subst hm
          exact Errors.insertField_ne_nil m0 f t

/-!
The claim theorems.
-/

/-- Claim C1, counterexample: calling set_field_errors with an *empty* tree
argument already makes is_empty false, so is_empty is not equivalent to
"neither add_error nor add_field_error nor set_field_errors-with-a-non-empty-
tree was ever called". -/
theorem is_empty_claim_counterexample :
    ¬ (((run [Op.setFieldErrors "f" (Errors.new : Errors Unit)]).is_empty = true) ↔
       ((∀ r, Op.addError r ∉ [Op.setFieldErrors "f" (Errors.new : Errors Unit)]) ∧
        (∀ g r, Op.addFieldError g r ∉ [Op.setFieldErrors "f" (Errors.new : Errors Unit)]) ∧
        (∀ g t, Op.setFieldErrors g t ∈ [Op.setFieldErrors "f" (Errors.new : Errors Unit)] →
          t.is_empty = true))) := by
  intro h
  have hL : (run [Op.setFieldErrors "f" (Errors.new : Errors Unit)]).is_empty = false := rfl
  have hR : (run [Op.setFieldErrors "f" (Errors.new : Errors Unit)]).is_empty = true := by
    apply h.mpr
    refine ⟨?_, ?_, ?_⟩
    · intro r hr
      simp at hr
    · intro g r hr
      simp at hr
    · intro g t ht
      simp at ht
      rw [ht.2]
      rfl
  rw [hL] at hR
  exact Bool.noConfusion hR

/-- Claim C1 (amended): over every sequence of operations starting from
Errors::new, is_empty returns true iff no operation at all was ever
performed — add_error, add_field_error and set_field_errors each make the
tree non-empty, set_field_errors even when its tree argument is itself
empty. -/
theorem is_empty_run_iff_no_ops {T : Type} (ops : List (Op T)) :
    (run ops).is_empty = true ↔ ops = [] := by
  constructor
  · intro h
    cases ops with
    | nil => rfl
    | cons op rest =>
      exfalso
      have hfalse : (run (op :: rest)).is_empty = false := by
        have h1 : (step Errors.new op).is_empty = false := is_empty_step _ _
        simpa [run] using is_empty_foldl_step rest (step Errors.new op) h1
      rw [hfalse] at h
      exact Bool.noConfusion h
  · intro h
    subst h
    rfl

/-- Claim C2: add_field_error accumulates — after two calls for the same
field with records r1 then r2, the nested tree for that field holds whatever
base errors it previously had (whether it came from add_field_error or
set_field_errors, or did not exist) followed by r1 and r2 in order, and its
own field map is preserved rather than the tree being replaced. -/
theorem add_field_error_accumulates {T : Type} (e : Errors T) (f : String)
    (r1 r2 : Error T) :
    ((e.add_field_error f r1).add_field_error f r2).field f =
      some (Errors.mk
        (some ((((e.field f).getD Errors.new).base.getD []) ++ [r1, r2]))
        (((e.field f).getD Errors.new).fields)) := by
  simp [Errors.field_add_field_error_self, Errors.add_error_eq]

/-- Claim C4: set_field_errors replaces — after set_field_errors(f, t) the
lookup for f returns exactly t, whatever tree (from add_field_error or an
earlier set_field_errors) was present before. -/
theorem set_field_errors_replaces {T : Type} (e : Errors T) (f : String)
    (t : Errors T) : (e.set_field_errors f t).field f = some t :=
  Errors.field_set_field_errors_self e f t

/-- Claim C5: add_error preserves insertion order — starting from a tree
with no base errors, a non-empty sequence of add_error calls makes base
return exactly that sequence in order; and over every operation sequence
from Errors::new, field(g) stays absent when no add_field_error or
set_field_errors call ever named g. -/
theorem add_error_order_and_untouched_fields {T : Type} :
    (∀ (e : Errors T) (rs : List (Error T)), e.base = none → rs ≠ [] →
      (rs.foldl Errors.add_error e).base = some rs) ∧
    (∀ (ops : List (Op T)) (g : String),
      (∀ r, Op.addFieldError g r ∉ ops) → (∀ t, Op.setFieldErrors g t ∉ ops) →
      (run ops).field g = none) := by
  constructor
  · intro e rs h hrs
    cases rs with
    | nil => exact absurd rfl hrs
    | cons r rest =>
      have h1 : (e.add_error r).base = some [r] := by simp [h]
      simpa using base_foldl_add_error rest (e.add_error r) [r] h1
  · intro ops g h1 h2
    exact field_foldl_step_untouched ops g Errors.new (by simp) h1 h2

/-- Witness for claim C5 at a concrete input: one add_error call yields that
single record as the base, and a field never touched reads as absent. -/
theorem add_error_order_example :
    ((([Error.new "m"] : List (Error Unit)).foldl Errors.add_error Errors.new).base =
      some [Error.new "m"]) ∧
    ((run [Op.addError (Error.new "m")] : Errors Unit).field "name" = none) := by
  constructor
  · exact add_error_order_and_untouched_fields.1 Errors.new [Error.new "m"] rfl
      (by simp)
  · exact add_error_order_and_untouched_fields.2 [Op.addError (Error.new "m")] "name"
      (fun r hr => by simp at hr) (fun t ht => by simp at ht)

/-- Claim C7: details round-trip — with_details stores exactly the given
details, set_details always succeeds and overwrites to exactly the given
details, and a record built with new has no details. -/
theorem details_roundtrip {T : Type} :
    (∀ (m : String) (d : T), (Error.with_details m d).details = some d) ∧
    (∀ (e : Error T) (d : T), (e.set_details d).details = some d) ∧
    (∀ m : String, (Error.new m : Error T).details = none) :=
  ⟨fun _ _ => rfl, fun _ _ => rfl, fun _ => rfl⟩

/-- Claim C8: the Errors methods are infallible — the only potentially
panicking operation in the whole impl block is the unwrap inside
Errors::field, and it is unreachable because the is_some test guards it:
fieldImpl always returns ok, with the value field computes. -/
theorem field_guarded_unwrap_never_panics {T : Type} (e : Errors T) (f : String) :
    e.fieldImpl f = Except.ok (e.field f) := by
  cases e with
  | mk b fs => cases fs <;> simp [Errors.fieldImpl, Errors.field, Errors.unwrapOpt]

/-- Claim C9: representation invariant — every tree reachable from
Errors::new by the public operations has a base that is either absent or a
non-empty vector, and a field map that is either absent or non-empty. -/
theorem run_rep_invariant {T : Type} (ops : List (Op T)) :
    (∀ l, (run ops).base = some l → l ≠ []) ∧
    (∀ m, (run ops).fields = some m → m ≠ []) := by
  have main : ∀ (l : List (Op T)) (e : Errors T),
      (∀ bl, e.base = some bl → bl ≠ []) → (∀ m, e.fields = some m → m ≠ []) →
      (∀ bl, (l.foldl step e).base = some bl → bl ≠ []) ∧
      (∀ m, (l.foldl step e).fields = some m → m ≠ []) := by
    intro l
    induction l with
    | nil => intro e hb hf; exact ⟨hb, hf⟩
    | cons op rest ih =>
      intro e hb hf
      have h := step_preserves_rep_inv e op hb hf
      exact ih (step e op) h.1 h.2
  exact main ops Errors.new (by simp) (by simp)

/-- Witness for claim C9 at a concrete input: after one add_error the base
vector is a concrete non-empty list. -/
theorem run_rep_invariant_example :
    ([Error.new "boom"] : List (Error Unit)) ≠ [] :=
  (run_rep_invariant [Op.addError (Error.new "boom")]).1 [Error.new "boom"] rfl

/-!
Lemmas about the example validators, for claims C3 and C6.
-/

theorem is_empty_checkNumber (e : Errors InvalidCharacters) (fn : String)
    (p : Option PhoneNumber) :
    (checkNumber e fn p).is_empty =
      (e.is_empty && (match p with
        | some q => (InvalidCharacters.check_digits q.full_number).length == 0
        | none => true)) := by
  cases p with
  | none => simp [checkNumber]
  | some q =>
    by_cases h : (InvalidCharacters.check_digits q.full_number).length > 0
    · have h0 : ((InvalidCharacters.check_digits q.full_number).length == 0) = false :=
        beq_eq_false_iff_ne.mpr (Nat.pos_iff_ne_zero.mp h)
      simp [checkNumber, h, h0]
    · have h0 : (InvalidCharacters.check_digits q.full_number).length = 0 :=
        Nat.eq_zero_of_not_pos h
      simp [checkNumber, h, h0]

theorem is_empty_checkNumber_mono (e : Errors InvalidCharacters) (fn : String)
    (p : Option PhoneNumber) (h : e.is_empty = false) :
    (checkNumber e fn p).is_empty = false := by
  rw [is_empty_checkNumber, h]
  simp

theorem field_checkNumber_ne (e : Errors InvalidCharacters) (fn g : String)
    (p : Option PhoneNumber) (h : g ≠ fn) :
    (checkNumber e fn p).field g = e.field g := by
  cases p with
  | none => rfl
  | some q =>
    by_cases hq : (InvalidCharacters.check_digits q.full_number).length > 0
    · simp [checkNumber, hq, Errors.field_add_field_error_ne _ _ _ _ h]
    · simp [checkNumber, hq]

theorem is_empty_baseChecks (a : AddressBookEntry) :
    a.baseChecks.is_empty =
      ((a.cell_number.isSome || a.home_number.isSome)
        && (a.name.length != 0)
        && (match a.email with
            | some em => em.address.contains '@'
            | none => true)) := by
  rcases a with ⟨cell, email, home, name⟩
  unfold AddressBookEntry.baseChecks
  rcases email with _ | em
  · rcases cell with _ | c <;> rcases home with _ | hm <;>
      by_cases h2 : name.length == 0 <;> simp [h2, bne]
  · by_cases hc : em.address.contains '@' <;>
      rcases cell with _ | c <;> rcases home with _ | hm <;>
      by_cases h2 : name.length == 0 <;> simp [h2, hc, bne, Email.validate]

theorem is_empty_collectErrors (a : AddressBookEntry) :
    a.collectErrors.is_empty = a.rulesHold := by
  unfold AddressBookEntry.collectErrors AddressBookEntry.rulesHold
  rw [is_empty_checkNumber, is_empty_checkNumber, is_empty_baseChecks]

theorem baseChecks_field_untouched (a : AddressBookEntry) (g : String)
    (h1 : g ≠ "name") (h2 : g ≠ "email") : a.baseChecks.field g = none := by
  rcases a with ⟨cell, email, home, name⟩
  unfold AddressBookEntry.baseChecks
  rcases email with _ | em
  · by_cases hcn : (Option.isNone cell && Option.isNone home) = true <;>
      by_cases h2n : (name.length == 0) = true <;>
      simp [hcn, h2n, Errors.field_add_field_error_ne, h1]
  · by_cases hc : em.address.contains '@' <;>
      by_cases hcn : (Option.isNone cell && Option.isNone home) = true <;>
      by_cases h2n : (name.length == 0) = true <;>
      simp [hc, hcn, h2n, Email.validate, Errors.field_add_field_error_ne,
        Errors.field_set_field_errors_ne, h1, h2]

/-- Claim C3: the example Validate implementations return Ok exactly when
all of their validation rules hold, and any error tree they return is
non-empty. -/
theorem validate_ok_iff_rules :
    (∀ a : AddressBookEntry,
      (a.validate = Except.ok () ↔ a.rulesHold = true) ∧
      (∀ e, a.validate = Except.error e → e.is_empty = false)) ∧
    (∀ em : Email,
      (em.validate = Except.ok () ↔ em.address.contains '@' = true) ∧
      (∀ e, em.validate = Except.error e → e.is_empty = false)) := by
  constructor
  · intro a
    constructor
    · rw [← is_empty_collectErrors a]
      unfold AddressBookEntry.validate
      by_cases h : a.collectErrors.is_empty = true
      · simp [h]
      · simp [h]
    · intro e he
      unfold AddressBookEntry.validate at he
      by_cases h : a.collectErrors.is_empty = true
      · rw [if_pos h] at he
        exact Except.noConfusion he
      · rw [if_neg h] at he
        injection he with heq
        rw [← heq]
        exact Bool.eq_false_iff.mpr h
  · intro em
    constructor
    · unfold Email.validate
      by_cases hc : em.address.contains '@' = true
      · simp [hc]
      · simp [hc]
    · intro e he
      unfold Email.validate at he
      by_cases hc : em.address.contains '@' = true
      · rw [if_pos hc] at he
        exact Except.noConfusion he
      · rw [if_neg hc] at he
        injection he with heq
        rw [← heq]
        simp

/-- Witness for claim C3 at a concrete input: an entry with no phone number
at all yields an error tree carrying the base error, and that tree is
non-empty. -/
theorem validate_err_nonempty_example :
    (Errors.mk (some [Error.new "at least one phone number is required"])
      (none : Option (List (String × Errors InvalidCharacters)))).is_empty = false :=
  (validate_ok_iff_rules.1 ⟨none, none, none, "Rust Cohle"⟩).2
    (Errors.mk (some [Error.new "at least one phone number is required"]) none) rfl

/-- Claim C6, counterexample: the dash separator is a non-digit character of
the full number, yet check_digits strips it before filtering, so a phone
number whose only non-digit characters are dashes produces no field error at
all, and dashes never appear in the details. -/
theorem check_digits_dash_counterexample :
    (AddressBookEntry.validate ⟨none, none, some ⟨"555", "5555"⟩, "Rust Cohle"⟩ =
      Except.ok ()) ∧
    ((PhoneNumber.full_number ⟨"555", "5555"⟩).toList.filter (fun c => !c.isDigit) =
      ['-']) ∧
    (InvalidCharacters.check_digits (PhoneNumber.full_number ⟨"555", "5555"⟩) = []) :=
  ⟨rfl, by decide, rfl⟩

/-- Claim C6 (amended): the offending characters of a phone number are its
characters that are neither decimal digits nor the dash separator (which
check_digits strips).  Whenever the home number has at least one such
character, validation fails and the home_number field error's details hold
exactly those characters, order-preserving and duplicate-preserving relative
to their occurrence in the full number. -/
theorem check_digits_details_exact (a : AddressBookEntry) (p : PhoneNumber)
    (hp : a.home_number = some p)
    (hbad : p.full_number.toList.filter (fun c => !c.isDigit && (c != '-')) ≠ []) :
    ∃ er, a.validate = Except.error er ∧
      er.field "home_number" =
        some (Errors.mk
          (some [Error.with_details "has invalid characters"
            { invalid_characters := InvalidCharacters.check_digits p.full_number }])
          none) ∧
      InvalidCharacters.check_digits p.full_number =
        p.full_number.toList.filter (fun c => !c.isDigit && (c != '-')) := by
  have hcd : InvalidCharacters.check_digits p.full_number =
      p.full_number.toList.filter (fun c => !c.isDigit && (c != '-')) := by
    simp [InvalidCharacters.check_digits, List.filter_filter]
  have hlen : (InvalidCharacters.check_digits p.full_number).length > 0 := by
    rw [hcd]
    exact List.length_pos.mpr hbad
  have hunfold : checkNumber a.baseChecks "home_number" (some p) =
      a.baseChecks.add_field_error "home_number"
        (Error.with_details "has invalid characters"
          { invalid_characters := InvalidCharacters.check_digits p.full_number }) := by
    simp [checkNumber, hlen]
  have hfield0 : a.baseChecks.field "home_number" = none :=
    baseChecks_field_untouched a "home_number" (by decide) (by decide)
  have h1 : (checkNumber a.baseChecks "home_number" a.home_number).field "home_number" =
      some (Errors.mk
        (some [Error.with_details "has invalid characters"
          { invalid_characters := InvalidCharacters.check_digits p.full_number }])
        none) := by
    rw [hp, hunfold, Errors.field_add_field_error_self, hfield0]
    rfl
  have h2 : a.collectErrors.field "home_number" =
      some (Errors.mk
        (some [Error.with_details "has invalid characters"
          { invalid_characters := InvalidCharacters.check_digits p.full_number }])
        none) := by
    unfold AddressBookEntry.collectErrors
    rw [field_checkNumber_ne _ _ _ _ (by decide)]
    exact h1
  have hne : a.collectErrors.is_empty = false := by
    unfold AddressBookEntry.collectErrors
    apply is_empty_checkNumber_mono
    rw [hp, hunfold]
    exact Errors.is_empty_add_field_error _ _ _
  refine ⟨a.collectErrors, ?_, h2, hcd⟩
  unfold AddressBookEntry.validate
  rw [if_neg (by simp [hne])]

/-- Witness for claim C6 at the concrete input of the crate's details test:
the phone number x55-55t5 with area code 555. -/
theorem check_digits_details_example :
    ∃ er, AddressBookEntry.validate ⟨none, none, some ⟨"555", "x55-55t5"⟩, "Rust Cohle"⟩ =
        Except.error er ∧
      er.field "home_number" =
        some (Errors.mk
          (some [Error.with_details "has invalid characters"
            { invalid_characters :=
                InvalidCharacters.check_digits (PhoneNumber.full_number ⟨"555", "x55-55t5"⟩) }])
          none) ∧
      InvalidCharacters.check_digits (PhoneNumber.full_number ⟨"555", "x55-55t5"⟩) =
        (PhoneNumber.full_number ⟨"555", "x55-55t5"⟩).toList.filter
          (fun c => !c.isDigit && (c != '-')) :=
  check_digits_details_exact ⟨none, none, some ⟨"555", "x55-55t5"⟩, "Rust Cohle"⟩
    ⟨"555", "x55-55t5"⟩ rfl (by decide)

/-- Claim C10: frame properties — add_error leaves the field map unchanged,
and add_field_error and set_field_errors for a field f leave the base
sequence unchanged and leave every other field unchanged. -/
theorem op_frame_properties {T : Type} (e : Errors T) (f g : String)
    (err : Error T) (t : Errors T) (h : g ≠ f) :
    (e.add_error err).fields = e.fields ∧
    (e.add_field_error f err).base = e.base ∧
    (e.set_field_errors f t).base = e.base ∧
    (e.add_field_error f err).field g = e.field g ∧
    (e.set_field_errors f t).field g = e.field g :=
  ⟨Errors.fields_add_error e err, Errors.base_add_field_error e f err,
   Errors.base_set_field_errors e f t, Errors.field_add_field_error_ne e f g err h,
   Errors.field_set_field_errors_ne e f g t h⟩

/-- Witness for claim C10 at a concrete input. -/
theorem op_frame_properties_example :
    (((Errors.new : Errors Unit).add_error (Error.new "m")).fields =
      (Errors.new : Errors Unit).fields) ∧
    (((Errors.new : Errors Unit).add_field_error "a" (Error.new "m")).base =
      (Errors.new : Errors Unit).base) ∧
    (((Errors.new : Errors Unit).set_field_errors "a" Errors.new).base =
      (Errors.new : Errors Unit).base) ∧
    (((Errors.new : Errors Unit).add_field_error "a" (Error.new "m")).field "b" =
      (Errors.new : Errors Unit).field "b") ∧
    (((Errors.new : Errors Unit).set_field_errors "a" Errors.new).field "b" =
      (Errors.new : Errors Unit).field "b") :=
  op_frame_properties Errors.new "a" "b" (Error.new "m") Errors.new (by decide)

end Validations
